import Mathlib

/-!
Verification development for the gpxviewer GUI layer (`gpxviewer/ui.py`):
a shallow embedding of the track registry (`_TrackManager`), the selection
and styling controller, and the lazy-load scheduler of `MainWindow`,
together with theorems settling the specified properties.

Modelling conventions:
* A `GPXTrace` is embedded as a `Trace` record carrying the accessors the
  registry uses (`get_full_path`, `get_display_name`, `get_points`);
  geometry points are abstracted to pairs of integers (their values are
  never inspected by the code under verification).  Python object
  inequality `trace != _trace` is embedded as structural inequality; the
  registry only ever stores traces produced by distinct parser calls.
* An `OsmGpsMap.MapTrack` is embedded as a `MapTrack` record with its
  mutable `alpha` property, a rational: the Python side only ever assigns
  and compares the literals `0.5` and `0.8`, embedded as the exact
  rationals `mkRat 5 10` and `mkRat 8 10` (no arithmetic is performed on
  alphas, so the embedding only needs the literals to stay distinct and
  equal to themselves) and its point list.
* The Python dict `self._tracks` (insertion ordered) is embedded as an
  ordered list of `Entry`; the `Gtk.ListStore` model as an ordered list of
  `(display_name, filename)` pairs.  Signal emission is embedded by
  returning the list of emitted events.
* In-place mutation of `MapTrack.alpha` is embedded as a functional
  update of the registry state.
* The external parser (`GPXTrace(filename)`, which raises on invalid
  files) is a parameter `parse : String → Option Trace`.
-/

namespace GpxViewer

/-- A geometry point (radian latitude/longitude), abstracted. -/
abbrev Point := Int × Int

/-- Embedding of a parsed `GPXTrace`: full path, display name, and the
nested geometry `get_points()` returns (tracks, each a list of segments,
each a list of points). -/
structure Trace where
  fullPath : String
  displayName : String
  points : List (List (List Point))
deriving DecidableEq, Repr

/-- Embedding of an `OsmGpsMap.MapTrack` overlay: its `alpha` property and
the points added via `add_point`. -/
structure MapTrack where
  alpha : ℚ
  trackPoints : List Point
deriving DecidableEq, Repr

/-- `ALPHA_UNSELECTED = 0.5` (ui.py line 61). -/
def ALPHA_UNSELECTED : ℚ := mkRat 5 10

/-- `ALPHA_SELECTED = 0.8` (ui.py line 62). -/
def ALPHA_SELECTED : ℚ := mkRat 8 10

/-- `LAZY_LOAD_AFTER_N_FILES = 3` (ui.py line 63). -/
def LAZY_LOAD_AFTER_N_FILES : Nat := 3

/-- One registry entry of `_TrackManager._tracks`:
`track_filename : (GPXTrace, [OsmGpsMapTrack])`. -/
structure Entry where
  path : String
  trace : Trace
  gpstracks : List MapTrack
deriving DecidableEq, Repr

/-- Signals of `_TrackManager`: `track-added` and `track-removed`, each
carrying `(trace, gpstracks)`. -/
inductive TMEvent where
  | trackAdded (trace : Trace) (gpstracks : List MapTrack)
  | trackRemoved (trace : Trace) (gpstracks : List MapTrack)
deriving DecidableEq, Repr

/-- The `_TrackManager` state: the insertion-ordered dict `_tracks` and
the `Gtk.ListStore(str, str)` rows `(name, filename)`. -/
structure TMState where
  tracks : List Entry
  model : List (String × String)
deriving DecidableEq, Repr

/-- The freshly constructed `_TrackManager`: empty dict, empty model. -/
def TMState.empty : TMState := ⟨[], []⟩

/-- Dict lookup `self._tracks[filename]` / membership test, embedded as a
first-match search over the ordered entry list (a Python dict has at most
one value per key). -/
def tracksFind (l : List Entry) (filename : String) : Option Entry :=
  l.find? fun e => e.path == filename

/-- `_TrackManager.get_other_tracks(trace)` (ui.py lines 82-87): start from
an empty list and append every entry's overlay list whose trace differs
from `trace`, in dict order. -/
def get_other_tracks (s : TMState) (trace : Trace) : List MapTrack :=
  s.tracks.foldl (fun acc e => if trace ≠ e.trace then acc ++ e.gpstracks else acc) []

/-- `_TrackManager.get_trace(filename)` (ui.py lines 97-99): dict lookup,
`none` embeds the `KeyError` case. -/
def get_trace (s : TMState) (filename : String) : Option Entry :=
  tracksFind s.tracks filename

/-- `_TrackManager.get_trace_from_model(_iter)` (ui.py lines 89-91): read
the filename column of row `i`, then `get_trace`. -/
def get_trace_from_model (s : TMState) (i : Nat) : Option Entry :=
  match s.model.get? i with
  | none => none
  | some row => get_trace s row.2

/-- The overlay construction inside `_TrackManager.add_trace` (ui.py lines
104-113): one `MapTrack` per geometry segment of every track, created with
`gpstrack.props.alpha = 0.8` and the segment's points added in order. -/
def makeOverlays (trace : Trace) : List MapTrack :=
  trace.points.flatMap fun track => track.map fun segment => ⟨mkRat 8 10, segment⟩

/-- `_TrackManager.add_trace(trace)` (ui.py lines 101-117): if the trace's
full path is already a key of `_tracks` do nothing; otherwise build the
overlays, store the entry, append a `(display_name, filename)` model row,
and emit `track-added`.  The returned list is the emitted signals. -/
def add_trace (s : TMState) (trace : Trace) : TMState × List TMEvent :=
  let filename := trace.fullPath
  if (tracksFind s.tracks filename).isSome then (s, [])
  else
    let gpstracks := makeOverlays trace
    ({ tracks := s.tracks ++ [⟨filename, trace, gpstracks⟩],
       model := s.model ++ [(trace.displayName, filename)] },
     [TMEvent.trackAdded trace gpstracks])

/-- `_TrackManager.delete_trace_from_model(_iter)` (ui.py lines 93-95):
read the filename of row `i`, emit `track-removed` with the dict entry's
contents, and remove the model row.  The source never deletes the
`_tracks` dict entry, so `tracks` is returned unchanged.  `none` embeds
an invalid row index or a `KeyError` on the dict lookup. -/
def delete_trace_from_model (s : TMState) (i : Nat) : Option (TMState × List TMEvent) :=
  match s.model.get? i with
  | none => none
  | some row =>
    match tracksFind s.tracks row.2 with
    | none => none
    | some e =>
      some ({ s with model := s.model.eraseIdx i },
            [TMEvent.trackRemoved e.trace e.gpstracks])

/-- `_TrackManager.num_traces()` (ui.py lines 119-120): `len(self._tracks)`. -/
def num_traces (s : TMState) : Nat :=
  s.tracks.length

/-- `_TrackManager.get_all_traces()` (ui.py lines 122-123). -/
def get_all_traces (s : TMState) : List Trace :=
  s.tracks.map Entry.trace

/-- `MainWindow.select_tracks(tracks, alpha)` (ui.py lines 354-356): set
every overlay's alpha, embedded functionally. -/
def select_tracks (tracks : List MapTrack) (alpha : ℚ) : List MapTrack :=
  tracks.map fun t => { t with alpha := alpha }

/-- Functional update of one entry's overlays to a common alpha. -/
def setEntryAlpha (e : Entry) (alpha : ℚ) : Entry :=
  { e with gpstracks := select_tracks e.gpstracks alpha }

/-- The registry-visible effect of `MainWindow.on_selection_changed`
(ui.py lines 300-311) for a selection on row `i`: no row selected returns
unchanged; otherwise look up the entry (a `KeyError` is `none`), set the
selected entry's overlays to `ALPHA_SELECTED`, then set the overlays of
every entry with a different trace (`get_other_tracks`) to
`ALPHA_UNSELECTED`.  The `select_trace` label/statistics effect lives in
`AppState` and does not touch overlay alphas. -/
def on_selection_changed (s : TMState) (i : Nat) : Option TMState :=
  match s.model.get? i with
  | none => some s
  | some row =>
    match tracksFind s.tracks row.2 with
    | none => none
    | some e =>
      let tracks1 := s.tracks.map fun en =>
        if en.path = row.2 then setEntryAlpha en ALPHA_SELECTED else en
      let tracks2 := tracks1.map fun en =>
        if e.trace ≠ en.trace then setEntryAlpha en ALPHA_UNSELECTED else en
      some { s with tracks := tracks2 }

/-- The `MainWindow` state visible to the verified claims: the owned
`_TrackManager`, the `loadingFiles` pending-load counter (a Python int),
the trace whose statistics labels and `currentFilename` were last set by
`select_trace` (the "selected" trace), and the number of
`show_gpx_error` dialogs shown.  Map-widget and label-widget internals are
external collaborators and are not modelled. -/
structure AppState where
  tm : TMState
  loadingFiles : Int
  selected : Option Trace
  errors : Nat
deriving DecidableEq, Repr

/-- `MainWindow.select_trace(trace)` (ui.py lines 358-382): return
immediately while `self.loadingFiles` is truthy (nonzero); otherwise set
the statistics labels, `currentFilename` and the window title for `trace`
(embedded as recording it in `selected`). -/
def select_trace (a : AppState) (trace : Trace) : AppState :=
  if a.loadingFiles ≠ 0 then a else { a with selected := some trace }

/-- `MainWindow.on_track_added(tm, trace, tracks)` (ui.py lines 313-316):
add the overlays to the map widget (external, not modelled) and call
`select_trace(trace)`. -/
def on_track_added (a : AppState) (trace : Trace) : AppState :=
  select_trace a trace

/-- Synchronous GObject signal dispatch: the `MainWindow` handlers run for
each emitted `_TrackManager` signal in order.  `track-removed` only
touches the map widget (ui.py lines 318-320), so it leaves `AppState`
unchanged. -/
def dispatchEvents (a : AppState) (evs : List TMEvent) : AppState :=
  evs.foldl
    (fun st ev =>
      match ev with
      | TMEvent.trackAdded trace _ => on_track_added st trace
      | TMEvent.trackRemoved _ _ => st)
    a

/-- `MainWindow.load_gpx(filename)` (ui.py lines 384-393): construct
`GPXTrace(filename)` (the external parser `parse`); on success call
`add_trace` (whose `track-added` signal is handled synchronously) and
return the trace; on any exception show the invalid-GPX error dialog and
return `None`.  The middle component is the list of signals `add_trace`
emitted during the call.  (`show_track_selector` is sidebar visibility,
not modelled.) -/
def load_gpx (parse : String → Option Trace) (a : AppState) (filename : String) :
    AppState × List TMEvent × Option Trace :=
  match parse filename with
  | none => ({ a with errors := a.errors + 1 }, [], none)
  | some trace =>
    let r := add_trace a.tm trace
    let a1 := dispatchEvents { a with tm := r.1 } r.2
    (a1, r.2, some trace)

/-- The `for filename in files` loop of `MainWindow.lazyLoadFiles` taken
when `len(files) < LAZY_LOAD_AFTER_N_FILES` (ui.py lines 262-272): set
`loadingFiles = i` before each load; after a load, increment `i` while
`i < LAZY_LOAD_AFTER_N_FILES`, otherwise reset the counter, select the
last loaded trace and break.  `none` embeds the unhandled exception
`select_trace(None)` would raise in that break branch. -/
def syncLoadLoop (parse : String → Option Trace) :
    AppState → List String → Int → Option AppState
  | a, [], _ => some a
  | a, filename :: rest, i =>
    let a1 := { a with loadingFiles := i }
    let r := load_gpx parse a1 filename
    if i < (LAZY_LOAD_AFTER_N_FILES : Int) then
      syncLoadLoop parse r.1 rest (i + 1)
    else
      match r.2.2 with
      | some trace => some (select_trace { r.1 with loadingFiles := 0 } trace)
      | none => none

/-- One tick of the `do_lazy_load` timer callback inside `lazyLoadFiles`
(ui.py lines 246-253): `pop()` the last pending path (an empty list raises
`IndexError`: reset the counter to 0 and return `False` to stop the
timer), load it, decrement `loadingFiles`, and return `True` to keep the
timer running.  Result: `(new app state, new pending list, continue?)`. -/
def do_lazy_load (parse : String → Option Trace) (a : AppState) (pending : List String) :
    AppState × List String × Bool :=
  match pending.getLast? with
  | none => ({ a with loadingFiles := 0 }, [], false)
  | some filename =>
    let r := load_gpx parse a filename
    ({ r.1 with loadingFiles := r.1.loadingFiles - 1 }, pending.dropLast, true)

/-- `MainWindow.lazyLoadFiles(files)` (ui.py lines 245-275): reset
`loadingFiles` to 0; an empty list returns at once; fewer than
`LAZY_LOAD_AFTER_N_FILES` files run the synchronous loop; otherwise set
`loadingFiles = len(files)` and schedule `do_lazy_load` on a 100ms timer.
Result: `(app state when the call returns (`none` = unhandled exception),
the pending list handed to the timer when one was scheduled)`. -/
def lazyLoadFiles (parse : String → Option Trace) (a : AppState) (files : List String) :
    Option AppState × Option (List String) :=
  let a0 := { a with loadingFiles := 0 }
  if files.isEmpty then (some a0, none)
  else if files.length < LAZY_LOAD_AFTER_N_FILES then
    (syncLoadLoop parse a0 files 0, none)
  else
    (some { a0 with loadingFiles := (files.length : Int) }, some files)

/-- Iterate the `do_lazy_load` timer for up to `k` ticks, stopping when
the callback returns `False` (GLib removes a timeout whose callback
returns falsy). -/
def runTimer (parse : String → Option Trace) :
    Nat → AppState → List String → AppState × List String
  | 0, a, pending => (a, pending)
  | Nat.succ n, a, pending =>
    let r := do_lazy_load parse a pending
    if r.2.2 then runTimer parse n r.1 r.2.1 else (r.1, r.2.1)

/-- Spec-side characterization of `other_overlays(trace)`, written from
the spec's words ("all overlays belonging to every entry except the one
for `trace`" / "exactly the concatenation of the overlay sequences of
every entry whose Trace is not t"), to be compared with
`get_other_tracks`. -/
def other_overlays_spec (s : TMState) (trace : Trace) : List MapTrack :=
  (s.tracks.filter fun e => e.trace != trace).flatMap Entry.gpstracks

/-- Number of registry entries whose key is `p`. -/
def entriesFor (s : TMState) (p : String) : Nat :=
  (s.tracks.filter fun e => e.path == p).length

/-- Number of model rows whose filename column is `p`. -/
def rowsFor (s : TMState) (p : String) : Nat :=
  (s.model.filter fun row => row.2 == p).length

/-- Number of `track-added` signals in `evs` whose trace has full path `p`. -/
def addedEventsFor (evs : List TMEvent) (p : String) : Nat :=
  (evs.filter fun ev =>
    match ev with
    | TMEvent.trackAdded trace _ => trace.fullPath == p
    | TMEvent.trackRemoved _ _ => false).length

/-- Total number of geometry segments across all tracks of a trace. -/
def totalSegments (t : Trace) : Nat :=
  (t.points.map List.length).sum

/-- Filenames of the model rows. -/
def modelFilenames (s : TMState) : List String :=
  s.model.map Prod.snd

/-- Key set of the registry dict, in insertion order. -/
def registryKeys (s : TMState) : List String :=
  s.tracks.map Entry.path

/-- Concrete trace for witnesses and counterexamples: one track with one
single-point segment. -/
def traceA : Trace := ⟨"a.gpx", "A", [[[(1, 2)]]]⟩

/-- A second concrete trace, distinct from `traceA`. -/
def traceB : Trace := ⟨"b.gpx", "B", [[[(3, 4)]]]⟩

/-- The overlay `add_trace` derives from `traceA`'s single segment. -/
def overlayA : MapTrack := ⟨mkRat 8 10, [(1, 2)]⟩

/-- The overlay `add_trace` derives from `traceB`'s single segment. -/
def overlayB : MapTrack := ⟨mkRat 8 10, [(3, 4)]⟩

/-- Registry state after adding `traceA` to the empty registry. -/
def stateA : TMState := (add_trace TMState.empty traceA).1

/-- The entry `add_trace` stores for `traceA`. -/
def entryA : Entry := ⟨"a.gpx", traceA, [overlayA]⟩

/-- The registry state `delete_trace_from_model` leaves behind after
removing `traceA`'s row from `stateA`: the model row is gone but the
`_tracks` entry survives. -/
def stateA' : TMState := ⟨[entryA], []⟩

/-- Concrete external parser: recognizes `traceA`'s and `traceB`'s paths. -/
def parseAB : String → Option Trace := fun f =>
  if f = "a.gpx" then some traceA
  else if f = "b.gpx" then some traceB
  else none

/-- The freshly constructed `MainWindow` application state. -/
def app0 : AppState := ⟨TMState.empty, 0, none, 0⟩

/-- Registry with both `traceA` and `traceB` loaded, in that order. -/
def stateAB : TMState := (add_trace stateA traceB).1

/-- A failed dict lookup means no entry carries the key. -/
theorem tracksFind_eq_none_iff {l : List Entry} {p : String} :
    tracksFind l p = none ↔ ∀ e ∈ l, e.path ≠ p := by
  unfold tracksFind
  rw [List.find?_eq_none]
  simp

/-- Looking up a freshly appended entry finds it. -/
theorem tracksFind_append_last {l : List Entry} {p : String}
    (h : tracksFind l p = none) (e : Entry) (he : e.path = p) :
    tracksFind (l ++ [e]) p = some e := by
  unfold tracksFind at *
  rw [List.find?_append, h, Option.none_or, List.find?_singleton, if_pos (by simp [he])]

/-- `add_trace` on a path not yet in the registry: the stored entry, the
appended model row and the emitted `track-added` signal. -/
theorem add_trace_fresh {s : TMState} {t : Trace}
    (h : tracksFind s.tracks t.fullPath = none) :
    add_trace s t =
      ({ tracks := s.tracks ++ [⟨t.fullPath, t, makeOverlays t⟩],
         model := s.model ++ [(t.displayName, t.fullPath)] },
       [TMEvent.trackAdded t (makeOverlays t)]) := by
  unfold add_trace
  simp [h]

/-- `add_trace` on a path already in the registry is a no-op emitting
nothing. -/
theorem add_trace_stale (s : TMState) (t : Trace) {e : Entry}
    (h : tracksFind s.tracks t.fullPath = some e) :
    add_trace s t = (s, []) := by
  unfold add_trace
  simp [h]

/-- The accumulator form of the `get_other_tracks` loop. -/
theorem get_other_tracks_aux (trace : Trace) (l : List Entry) (acc : List MapTrack) :
    l.foldl (fun acc e => if trace ≠ e.trace then acc ++ e.gpstracks else acc) acc
      = acc ++ (l.filter fun e => e.trace != trace).flatMap Entry.gpstracks := by
  induction l generalizing acc with
  | nil => simp
  | cons e l ih =>
    rw [List.foldl_cons, List.filter_cons]
    by_cases h : trace = e.trace
    · rw [if_neg (not_not_intro h), ih acc]
      have hb : (e.trace != trace) = false := by simp [h]
      rw [hb]
      simp
    · rw [if_pos h, ih (acc ++ e.gpstracks)]
      have hb : (e.trace != trace) = true := by
        simp only [bne_iff_ne, ne_eq]
        exact fun hc => h hc.symm
      rw [hb]
      simp [List.append_assoc]

/-- C6: `get_other_tracks(t)` returns exactly the concatenation of the
overlay sequences of every registry entry whose trace is not `t`: it
equals the spec-side characterization `other_overlays_spec`, and an
overlay is in the result precisely when it belongs to an entry whose
trace differs from `t`. -/
theorem get_other_tracks_correct (s : TMState) (t : Trace) :
    get_other_tracks s t = other_overlays_spec s t ∧
    ∀ mt : MapTrack, mt ∈ get_other_tracks s t ↔
      ∃ e ∈ s.tracks, e.trace ≠ t ∧ mt ∈ e.gpstracks := by
  have h : get_other_tracks s t = other_overlays_spec s t := by
    unfold get_other_tracks other_overlays_spec
    simpa using get_other_tracks_aux t s.tracks []
  refine ⟨h, fun mt => ?_⟩
  rw [h]
  unfold other_overlays_spec
  simp [List.mem_filter, and_assoc]

/-- C1 (code bug): on the registry `stateA` holding the single entry for
`"a.gpx"` (`N = 1`), `delete_trace_from_model` emits the
`track-removed` signal with the entry's contents and deletes the model
row, but the `_tracks` dict entry survives, so `num_traces` afterwards is
still 1 rather than `N - 1 = 0`. -/
theorem delete_trace_keeps_registry_entry :
    num_traces stateA = 1 ∧
    delete_trace_from_model stateA 0 =
      some (stateA', [TMEvent.trackRemoved traceA [overlayA]]) ∧
    stateA'.model = [] ∧
    num_traces stateA' = 1 ∧
    num_traces stateA' ≠ num_traces stateA - 1 := by
  decide

/-- C2 (code bug): after adding `"a.gpx"` and removing its row, the model
filename set and the registry key set disagree: `"a.gpx"` is still a
registry key but no longer a model filename. -/
theorem model_registry_desync_after_remove :
    delete_trace_from_model stateA 0 =
      some (stateA', [TMEvent.trackRemoved traceA [overlayA]]) ∧
    "a.gpx" ∈ registryKeys stateA' ∧
    "a.gpx" ∉ modelFilenames stateA' := by
  decide

/-- C7 (code bug): `lazyLoadFiles` on the two files `a.gpx`, `b.gpx`
loads both synchronously (no timer is scheduled and both registry entries
exist), but the selected trace is the first one, `traceA` — the
`select_trace` call for the second load is suppressed because
`loadingFiles` is 1 at that point — and `loadingFiles` is left at 1
instead of 0, so the last loaded trace never becomes selected. -/
theorem two_file_load_selects_first :
    (lazyLoadFiles parseAB app0 ["a.gpx", "b.gpx"]).2 = none ∧
    (lazyLoadFiles parseAB app0 ["a.gpx", "b.gpx"]).1 =
      some ⟨⟨[entryA, ⟨"b.gpx", traceB, [overlayB]⟩],
             [("A", "a.gpx"), ("B", "b.gpx")]⟩, 1, some traceA, 0⟩ ∧
    some traceA ≠ some traceB := by
  decide

/-- The overlay list built by `add_trace` has one overlay per geometry
segment: its length is the total segment count across all tracks. -/
theorem makeOverlays_length (t : Trace) :
    (makeOverlays t).length = totalSegments t := by
  unfold makeOverlays totalSegments
  rw [List.length_flatMap]
  have h : (List.length ∘ fun track : List (List Point) =>
        track.map fun segment => (⟨mkRat 8 10, segment⟩ : MapTrack))
      = List.length := by
    funext track
    simp
  rw [h]

/-- C3: adding the same trace twice yields exactly one registry entry and
exactly one model row for its path, and exactly one `track-added` signal
across both calls; the second call is a no-op that emits nothing.
(Hypotheses: the path is fresh, as in the spec's lifecycle, and the model
has no stray row for it.) -/
theorem add_trace_idempotent (s : TMState) (t : Trace)
    (hfresh : tracksFind s.tracks t.fullPath = none)
    (hrow : rowsFor s t.fullPath = 0) :
    add_trace (add_trace s t).1 t = ((add_trace s t).1, []) ∧
    entriesFor (add_trace s t).1 t.fullPath = 1 ∧
    rowsFor (add_trace s t).1 t.fullPath = 1 ∧
    addedEventsFor ((add_trace s t).2 ++ (add_trace (add_trace s t).1 t).2)
      t.fullPath = 1 := by
  rw [add_trace_fresh hfresh]
  have hfind : tracksFind (s.tracks ++ [⟨t.fullPath, t, makeOverlays t⟩]) t.fullPath
      = some ⟨t.fullPath, t, makeOverlays t⟩ :=
    tracksFind_append_last hfresh _ rfl
  have hsecond := add_trace_stale ⟨s.tracks ++ [⟨t.fullPath, t, makeOverlays t⟩],
    s.model ++ [(t.displayName, t.fullPath)]⟩ t hfind
  refine ⟨hsecond, ?_, ?_, ?_⟩
  · have hnone : (s.tracks.filter fun e => e.path == t.fullPath) = [] := by
      rw [List.filter_eq_nil_iff]
      intro e he
      simpa using tracksFind_eq_none_iff.mp hfresh e he
    unfold entriesFor
    simp [List.filter_append, hnone]
  · have hnone : (s.model.filter fun row => row.2 == t.fullPath) = [] :=
      List.length_eq_zero.mp hrow
    unfold rowsFor
    simp [List.filter_append, hnone]
  · rw [hsecond]
    simp [addedEventsFor]

/-- C3 witness: adding `traceA` twice to the empty registry. -/
theorem add_trace_idempotent_witness :
    tracksFind TMState.empty.tracks traceA.fullPath = none ∧
    rowsFor TMState.empty traceA.fullPath = 0 ∧
    (add_trace (add_trace TMState.empty traceA).1 traceA
        = ((add_trace TMState.empty traceA).1, []) ∧
     entriesFor (add_trace TMState.empty traceA).1 traceA.fullPath = 1 ∧
     rowsFor (add_trace TMState.empty traceA).1 traceA.fullPath = 1 ∧
     addedEventsFor ((add_trace TMState.empty traceA).2 ++
        (add_trace (add_trace TMState.empty traceA).1 traceA).2) traceA.fullPath = 1) :=
  ⟨by decide, by decide,
   add_trace_idempotent TMState.empty traceA (by decide) (by decide)⟩

/-- C4: a successfully added trace is stored under its path with one
overlay per geometry segment (the overlay sequence's length is the total
segment count across all tracks), and key uniqueness — at most one entry
per path — is preserved. -/
theorem add_trace_overlay_count (s : TMState) (t : Trace)
    (hfresh : tracksFind s.tracks t.fullPath = none)
    (hnd : (registryKeys s).Nodup) :
    tracksFind (add_trace s t).1.tracks t.fullPath
        = some ⟨t.fullPath, t, makeOverlays t⟩ ∧
    (makeOverlays t).length = totalSegments t ∧
    (registryKeys (add_trace s t).1).Nodup := by
  rw [add_trace_fresh hfresh]
  refine ⟨tracksFind_append_last hfresh _ rfl, makeOverlays_length t, ?_⟩
  have hmem : t.fullPath ∉ registryKeys s := by
    intro hc
    obtain ⟨e, he, hpe⟩ := List.mem_map.mp hc
    exact tracksFind_eq_none_iff.mp hfresh e he hpe
  unfold registryKeys at *
  rw [List.map_append, List.nodup_append]
  have hdisj : (s.tracks.map Entry.path).Disjoint ([⟨t.fullPath, t, makeOverlays t⟩].map Entry.path) := by
    intro a ha hb
    rw [List.map_singleton, List.mem_singleton] at hb
    subst hb
    exact hmem ha
  exact ⟨hnd, List.nodup_singleton _, hdisj⟩

/-- C4 witness: adding `traceA` (one track, one segment) to the empty
registry. -/
theorem add_trace_overlay_count_witness :
    tracksFind TMState.empty.tracks traceA.fullPath = none ∧
    (registryKeys TMState.empty).Nodup ∧
    (tracksFind (add_trace TMState.empty traceA).1.tracks traceA.fullPath
        = some ⟨traceA.fullPath, traceA, makeOverlays traceA⟩ ∧
     (makeOverlays traceA).length = totalSegments traceA ∧
     (registryKeys (add_trace TMState.empty traceA).1).Nodup) :=
  ⟨by decide, by decide,
   add_trace_overlay_count TMState.empty traceA (by decide) (by decide)⟩

/-- C10: every overlay `add_trace` creates is given alpha `0.8` (the
exact rational `mkRat 8 10`), which is precisely `ALPHA_SELECTED`, so a
freshly added trace's overlays carry the selected emphasis. -/
theorem fresh_overlays_have_selected_alpha (s : TMState) (t : Trace)
    (hfresh : tracksFind s.tracks t.fullPath = none) :
    tracksFind (add_trace s t).1.tracks t.fullPath
        = some ⟨t.fullPath, t, makeOverlays t⟩ ∧
    (∀ mt ∈ makeOverlays t, mt.alpha = mkRat 8 10) ∧
    ALPHA_SELECTED = mkRat 8 10 := by
  rw [add_trace_fresh hfresh]
  refine ⟨tracksFind_append_last hfresh _ rfl, ?_, rfl⟩
  intro mt hmt
  unfold makeOverlays at hmt
  obtain ⟨track, -, hmt⟩ := List.mem_flatMap.mp hmt
  obtain ⟨segment, -, rfl⟩ := List.mem_map.mp hmt
  rfl

/-- C10 witness: adding `traceA` to the empty registry. -/
theorem fresh_overlays_have_selected_alpha_witness :
    tracksFind TMState.empty.tracks traceA.fullPath = none ∧
    (tracksFind (add_trace TMState.empty traceA).1.tracks traceA.fullPath
        = some ⟨traceA.fullPath, traceA, makeOverlays traceA⟩ ∧
     (∀ mt ∈ makeOverlays traceA, mt.alpha = mkRat 8 10) ∧
     ALPHA_SELECTED = mkRat 8 10) :=
  ⟨by decide, fresh_overlays_have_selected_alpha TMState.empty traceA (by decide)⟩

/-- C8: when the parser fails on a file, `load_gpx` leaves the registry
and model untouched, emits no signal, increments the error-dialog count
(the generic invalid-GPX report) and returns `None` instead of crashing. -/
theorem load_gpx_parse_failure (parse : String → Option Trace) (a : AppState)
    (filename : String) (h : parse filename = none) :
    load_gpx parse a filename = ({ a with errors := a.errors + 1 }, [], none) ∧
    (load_gpx parse a filename).1.tm = a.tm ∧
    (load_gpx parse a filename).2.1 = [] ∧
    (load_gpx parse a filename).2.2 = none ∧
    (load_gpx parse a filename).1.errors = a.errors + 1 := by
  have heq : load_gpx parse a filename = ({ a with errors := a.errors + 1 }, [], none) := by
    unfold load_gpx
    rw [h]
  exact ⟨heq, by rw [heq], by rw [heq], by rw [heq], by rw [heq]⟩

/-- C8 witness: a parser that rejects everything, applied to `bad.gpx`
from the fresh application state. -/
theorem load_gpx_parse_failure_witness :
    (fun _ : String => (none : Option Trace)) "bad.gpx" = none ∧
    (load_gpx (fun _ => none) app0 "bad.gpx"
        = ({ app0 with errors := app0.errors + 1 }, [], none) ∧
     (load_gpx (fun _ => none) app0 "bad.gpx").1.tm = app0.tm ∧
     (load_gpx (fun _ => none) app0 "bad.gpx").2.1 = [] ∧
     (load_gpx (fun _ => none) app0 "bad.gpx").2.2 = none ∧
     (load_gpx (fun _ => none) app0 "bad.gpx").1.errors = app0.errors + 1) :=
  ⟨rfl, load_gpx_parse_failure (fun _ => none) app0 "bad.gpx" rfl⟩

/-- Overlays updated by `select_tracks` all carry the new alpha. -/
theorem mem_select_tracks {mt : MapTrack} {l : List MapTrack} {a : ℚ}
    (h : mt ∈ select_tracks l a) : mt.alpha = a := by
  unfold select_tracks at h
  obtain ⟨x, -, rfl⟩ := List.mem_map.mp h
  rfl

/-- C5: when a selection change lands on the entry at row `i` (path `p`,
entry `e`), every overlay of that entry ends with alpha `ALPHA_SELECTED`
(0.8) and every overlay of every other entry ends with alpha
`ALPHA_UNSELECTED` (0.5).  Hypotheses: the registry keys are unique (a
Python dict guarantees this) and distinct entries hold distinct traces
(each `add_trace` stores the object a separate parser call produced). -/
theorem selection_sets_alphas (s : TMState) (i : Nat) (name p : String) (e : Entry)
    (hm : s.model.get? i = some (name, p))
    (he : tracksFind s.tracks p = some e)
    (hnd : (registryKeys s).Nodup)
    (hdist : ∀ en ∈ s.tracks, en.path ≠ p → en.trace ≠ e.trace) :
    ∃ s', on_selection_changed s i = some s' ∧
      ∀ en ∈ s'.tracks,
        (en.path = p → ∀ mt ∈ en.gpstracks, mt.alpha = ALPHA_SELECTED) ∧
        (en.path ≠ p → ∀ mt ∈ en.gpstracks, mt.alpha = ALPHA_UNSELECTED) := by
  have hep : e.path = p := by
    have h2 : List.find? (fun en : Entry => en.path == p) s.tracks = some e := by
      simpa [tracksFind] using he
    have h1 := List.find?_some h2
    simpa using h1
  have hemem : e ∈ s.tracks :=
    List.mem_of_find?_eq_some (by simpa [tracksFind] using he)
  have hinj := List.inj_on_of_nodup_map (by simpa [registryKeys] using hnd)
  refine ⟨{ s with tracks :=
      ((s.tracks.map (fun en =>
          if en.path = p then setEntryAlpha en ALPHA_SELECTED else en)).map
        (fun en => if e.trace ≠ en.trace then setEntryAlpha en ALPHA_UNSELECTED else en)) },
    ?_, ?_⟩
  · unfold on_selection_changed
    rw [hm]
    dsimp only
    rw [he]
  · intro en' hen'
    dsimp only at hen'
    obtain ⟨en1, hen1, rfl⟩ := List.mem_map.mp hen'
    obtain ⟨en, hen, rfl⟩ := List.mem_map.mp hen1
    by_cases hp : en.path = p
    · have hene : en = e := hinj hen hemem (by rw [hp, hep])
      subst hene
      rw [if_pos hp]
      have htr : ¬ en.trace ≠ (setEntryAlpha en ALPHA_SELECTED).trace :=
        not_not_intro rfl
      rw [if_neg htr]
      constructor
      · intro _ mt hmt
        exact mem_select_tracks hmt
      · intro hne
        exact absurd hp hne
    · rw [if_neg hp]
      have htr : e.trace ≠ en.trace := Ne.symm (hdist en hen hp)
      rw [if_pos htr]
      constructor
      · intro hcp
        exact absurd hcp hp
      · intro _ mt hmt
        exact mem_select_tracks hmt

/-- C5 witness: selecting row 0 (the `a.gpx` entry) of the two-entry
registry `stateAB`. -/
theorem selection_sets_alphas_witness :
    stateAB.model.get? 0 = some ("A", "a.gpx") ∧
    tracksFind stateAB.tracks "a.gpx" = some entryA ∧
    (registryKeys stateAB).Nodup ∧
    (∀ en ∈ stateAB.tracks, en.path ≠ "a.gpx" → en.trace ≠ entryA.trace) ∧
    (∃ s', on_selection_changed stateAB 0 = some s' ∧
      ∀ en ∈ s'.tracks,
        (en.path = "a.gpx" → ∀ mt ∈ en.gpstracks, mt.alpha = ALPHA_SELECTED) ∧
        (en.path ≠ "a.gpx" → ∀ mt ∈ en.gpstracks, mt.alpha = ALPHA_UNSELECTED)) :=
  ⟨by decide, by decide, by decide, by decide,
   selection_sets_alphas stateAB 0 "A" "a.gpx" entryA
     (by decide) (by decide) (by decide) (by decide)⟩

/-- `select_trace` never changes the pending-load counter. -/
theorem select_trace_loadingFiles (a : AppState) (t : Trace) :
    (select_trace a t).loadingFiles = a.loadingFiles := by
  unfold select_trace
  split <;> rfl

/-- Signal dispatch never changes the pending-load counter. -/
theorem dispatchEvents_loadingFiles (evs : List TMEvent) :
    ∀ a : AppState, (dispatchEvents a evs).loadingFiles = a.loadingFiles := by
  induction evs with
  | nil => intro a; rfl
  | cons ev evs ih =>
    intro a
    unfold dispatchEvents at ih ⊢
    rw [List.foldl_cons]
    cases ev with
    | trackAdded t ov =>
      rw [ih (on_track_added a t)]
      exact select_trace_loadingFiles a t
    | trackRemoved t ov => exact ih a

/-- `load_gpx` never changes the pending-load counter. -/
theorem load_gpx_loadingFiles (parse : String → Option Trace) (a : AppState)
    (f : String) : (load_gpx parse a f).1.loadingFiles = a.loadingFiles := by
  unfold load_gpx
  cases h : parse f with
  | none => rfl
  | some t => simpa using dispatchEvents_loadingFiles (add_trace a.tm t).2 _

/-- Invariant of the lazy-load timer: when the pending counter equals the
pending-list length, after `k` ticks the counter and the remaining list
length both equal the original length minus `min k length` — the counter
decreases by exactly one per tick, monotonically, down to 0. -/
theorem runTimer_counter (parse : String → Option Trace) :
    ∀ (k : Nat) (b : AppState) (pending : List String),
      b.loadingFiles = (pending.length : Int) →
      (runTimer parse k b pending).1.loadingFiles
          = ((pending.length - min k pending.length : Nat) : Int) ∧
      (runTimer parse k b pending).2.length
          = pending.length - min k pending.length := by
  intro k
  induction k with
  | zero =>
    intro b pending h
    refine ⟨by simpa [runTimer] using h, by simp [runTimer]⟩
  | succ n ih =>
    intro b pending h
    rcases List.eq_nil_or_concat' pending with rfl | ⟨l, x, rfl⟩
    · refine ⟨by simp [runTimer, do_lazy_load], by simp [runTimer, do_lazy_load]⟩
    · have htick : do_lazy_load parse b (l ++ [x])
          = ({ (load_gpx parse b x).1 with
                loadingFiles := (load_gpx parse b x).1.loadingFiles - 1 }, l, true) := by
        unfold do_lazy_load
        rw [List.getLast?_concat, List.dropLast_concat]
      have hc : ({ (load_gpx parse b x).1 with
          loadingFiles := (load_gpx parse b x).1.loadingFiles - 1 } : AppState).loadingFiles
            = (l.length : Int) := by
        have hl := load_gpx_loadingFiles parse b x
        simp only [hl, h, List.length_append, List.length_singleton]
        push_cast
        omega
      have hrun : runTimer parse (n + 1) b (l ++ [x])
          = runTimer parse n
              { (load_gpx parse b x).1 with
                loadingFiles := (load_gpx parse b x).1.loadingFiles - 1 } l := by
        show (let r := do_lazy_load parse b (l ++ [x]);
          if r.2.2 then runTimer parse n r.1 r.2.1 else (r.1, r.2.1)) = _
        rw [htick]
        rfl
      obtain ⟨ih1, ih2⟩ := ih _ l hc
      rw [hrun]
      constructor
      · rw [ih1]
        congr 1
        simp only [List.length_append, List.length_singleton]
        omega
      · rw [ih2]
        simp only [List.length_append, List.length_singleton]
        omega

/-- C9: for a batch of at least `LAZY_LOAD_AFTER_N_FILES` files,
`lazyLoadFiles` sets the pending counter to the batch size and hands the
whole list to the recurring timer; every tick on a nonempty pending list
pops exactly one path (the last) and decrements the counter by one,
keeping the timer alive; a tick on the empty pending list resets the
counter to 0 and returns `false`, stopping the timer; after `k` ticks the
counter is the batch size minus `min k size`, so it decreases
monotonically to 0; and an empty input list is a no-op with the counter
at 0. -/
theorem lazy_load_scheduler (parse : String → Option Trace) (a : AppState)
    (files : List String) (h3 : LAZY_LOAD_AFTER_N_FILES ≤ files.length) :
    lazyLoadFiles parse a files
        = (some { a with loadingFiles := (files.length : Int) }, some files) ∧
    (∀ (b : AppState) (pending : List String), pending ≠ [] →
        (do_lazy_load parse b pending).2.2 = true ∧
        (do_lazy_load parse b pending).2.1 = pending.dropLast ∧
        (do_lazy_load parse b pending).1.loadingFiles = b.loadingFiles - 1) ∧
    (∀ b : AppState, do_lazy_load parse b [] = ({ b with loadingFiles := 0 }, [], false)) ∧
    (∀ k : Nat,
        (runTimer parse k { a with loadingFiles := (files.length : Int) } files).1.loadingFiles
          = ((files.length - min k files.length : Nat) : Int)) ∧
    lazyLoadFiles parse a [] = (some { a with loadingFiles := 0 }, none) := by
  refine ⟨?_, ?_, ?_, ?_, rfl⟩
  · have hne : files ≠ [] := by
      intro hc
      rw [hc] at h3
      exact absurd h3 (by decide)
    have hlt : ¬ files.length < LAZY_LOAD_AFTER_N_FILES := not_lt.mpr h3
    unfold lazyLoadFiles
    rw [if_neg (by simpa [List.isEmpty_iff] using hne), if_neg hlt]
  · intro b pending hne
    obtain ⟨x, hx⟩ : ∃ x, pending.getLast? = some x := by
      cases hq : pending.getLast? with
      | none =>
        exact absurd (List.getLast?_isSome.mpr hne) (by simp [hq])
      | some y => exact ⟨y, rfl⟩
    have htick : do_lazy_load parse b pending
        = ({ (load_gpx parse b x).1 with
              loadingFiles := (load_gpx parse b x).1.loadingFiles - 1 },
           pending.dropLast, true) := by
      unfold do_lazy_load
      rw [hx]
    refine ⟨by rw [htick], by rw [htick], ?_⟩
    rw [htick]
    simp [load_gpx_loadingFiles]
  · intro b
    rfl
  · intro k
    exact (runTimer_counter parse k _ files rfl).1

/-- C9 witness: a batch of five files from the fresh application state. -/
theorem lazy_load_scheduler_witness :
    LAZY_LOAD_AFTER_N_FILES
        ≤ (["a.gpx", "b.gpx", "x1", "x2", "x3"] : List String).length ∧
    (lazyLoadFiles parseAB app0 ["a.gpx", "b.gpx", "x1", "x2", "x3"]
        = (some { app0 with loadingFiles :=
            ((["a.gpx", "b.gpx", "x1", "x2", "x3"] : List String).length : Int) },
           some ["a.gpx", "b.gpx", "x1", "x2", "x3"]) ∧
     (∀ (b : AppState) (pending : List String), pending ≠ [] →
        (do_lazy_load parseAB b pending).2.2 = true ∧
        (do_lazy_load parseAB b pending).2.1 = pending.dropLast ∧
        (do_lazy_load parseAB b pending).1.loadingFiles = b.loadingFiles - 1) ∧
     (∀ b : AppState, do_lazy_load parseAB b [] = ({ b with loadingFiles := 0 }, [], false)) ∧
     (∀ k : Nat,
        (runTimer parseAB k
            { app0 with loadingFiles :=
              ((["a.gpx", "b.gpx", "x1", "x2", "x3"] : List String).length : Int) }
            ["a.gpx", "b.gpx", "x1", "x2", "x3"]).1.loadingFiles
          = (((["a.gpx", "b.gpx", "x1", "x2", "x3"] : List String).length
              - min k (["a.gpx", "b.gpx", "x1", "x2", "x3"] : List String).length : Nat) : Int)) ∧
     lazyLoadFiles parseAB app0 [] = (some { app0 with loadingFiles := 0 }, none)) :=
  ⟨by decide,
   lazy_load_scheduler parseAB app0 ["a.gpx", "b.gpx", "x1", "x2", "x3"] (by decide)⟩

end GpxViewer
